import Mathlib

/-!
Shallow embedding of the balance-monitor service (`src/app.py`).

The program is a single-file Flask service. We embed the pure decision
content of each function:

* JSON payloads are association lists of string keys to `Value`s
  (`null` / numeric / string), mirroring the Python dicts produced by
  `request.get_json()`.
* The database is a list of rows plus a counter supplying the
  server-assigned, strictly increasing `created_at` stamp
  (`DEFAULT CURRENT_TIMESTAMP` in the schema; the spec's "server-assigned
  insertion time, monotonically non-decreasing per insert").
* I/O faults (storage connectivity, the outbound Telegram HTTP call) are
  explicit oracle parameters: `Bool` fault flags for storage, and an
  `Option Nat` for the notification POST (`none` = exception raised by
  `requests.post`, `some code` = HTTP response code).
* `balance_update` additionally records a trace of the effects it performs
  (lookup, notify, persist) in order, so that ordering claims are statable.
-/

namespace BalanceMonitor

/-- A JSON scalar as it appears in the Python payloads and database rows.
Numbers are modelled as integers (the claims never depend on fractional
arithmetic). -/
inductive Value where
  | null
  | num (n : Int)
  | str (s : String)
deriving DecidableEq, Repr

/-- A parsed JSON object: association list of keys to values, mirroring the
Python dict. -/
abbrev Payload := List (String × Value)

/-- `payload.get(k)` with default `None`: returns `none` when the key is
absent or when its value is JSON `null` (both are Python `None`). -/
def Payload.getOpt (p : Payload) (k : String) : Option Value :=
  match p.lookup k with
  | some .null => none
  | some v => some v
  | none => none

/-- One row of the `balance_history` table (`init_database` schema), minus
the surrogate `id`.  `created_at` is the server-assigned insertion stamp. -/
structure Row where
  timestamp : Value
  account_label : Value
  account_number : Value
  balance : Value
  event_type : Value
  broker : Value
  currency : Value
  created_at : Nat
deriving DecidableEq, Repr

/-- The database: rows of `balance_history` and the next `created_at` stamp
the store will assign. -/
structure Db where
  rows : List Row
  nextId : Nat
deriving DecidableEq, Repr

/-- Well-formedness: every stored row was stamped before the next stamp to
be assigned.  Holds for every database built by inserts from `nextId = 0`. -/
def Db.wf (db : Db) : Prop := ∀ r ∈ db.rows, r.created_at < db.nextId

/-- Which schema objects exist; `init_database` issues only
`CREATE ... IF NOT EXISTS` statements, so existence flags suffice. -/
structure Schema where
  tableExists : Bool
  indexExists : Bool
deriving DecidableEq, Repr

/-- `init_database()` (src/app.py:40-94).  The PostgreSQL branch creates the
`balance_history` table and the `idx_account_label` index, both
`IF NOT EXISTS`; the SQLite branch creates only the table. -/
def init_database (use_postgres : Bool) (s : Schema) : Schema :=
  if use_postgres then { tableExists := true, indexExists := true }
  else { s with tableExists := true }

/-- The SQL `WHERE account_label = ? AND account_number = ?` predicate of
`get_previous_balance`.  A `None` parameter binds SQL `NULL`, and
`col = NULL` is never true, so a missing parameter matches no row. -/
def matchesAcct (label number : Option Value) (r : Row) : Bool :=
  match label, number with
  | some l, some n => r.account_label == l && r.account_number == n
  | _, _ => false

/-- `ORDER BY created_at DESC LIMIT 1`: a row of maximal `created_at`
(ties broken arbitrarily by the store; this model keeps the earliest). -/
def pickLatest : List Row → Option Row
  | [] => none
  | r :: rs =>
    match pickLatest rs with
    | none => some r
    | some m => if r.created_at < m.created_at then some m else some r

/-- `get_previous_balance(account_label, account_number)`
(src/app.py:106-141).  `fault` models any exception while touching storage:
the `except` clause returns `None`.  Otherwise: balance of the matching row
with the greatest `created_at`, or `None` when no row matches. -/
def get_previous_balance (fault : Bool) (label number : Option Value)
    (db : Db) : Option Value :=
  if fault then none
  else
    match pickLatest (db.rows.filter (matchesAcct label number)) with
    | none => none
    | some r => some r.balance

/-- The messaging configuration read from the environment. -/
structure Config where
  telegram_bot_token : String
  telegram_chat_id : String
deriving DecidableEq, Repr

/-- Whether `f"{v:,.2f}"` succeeds on the Python value: only numbers
format; `None`, strings etc. raise. -/
def Value.isNum : Value → Bool
  | .num _ => true
  | _ => false

/-- `send_to_telegram(payload, previous_balance)` (src/app.py:144-177).
Unset token or chat id short-circuits to `False` before the `try` block.
Inside the `try`: `new_balance = payload.get('new_balance', 0.0)` (default
applies only when the key is absent; a JSON `null` value yields Python
`None`), the `:,.2f` formats raise on non-numbers (caught, `False`),
then `requests.post` either raises (`net = none`, caught, `False`) or
returns a status code, and only code 200 yields `True`. -/
def send_to_telegram (cfg : Config) (net : Option Nat) (payload : Payload)
    (previous_balance : Option Value) : Bool :=
  if cfg.telegram_bot_token = "" || cfg.telegram_chat_id = "" then false
  else
    let new_balance := (payload.lookup "new_balance").getD (.num 0)
    let fmt_ok := new_balance.isNum &&
      (match previous_balance with
       | none => true
       | some v => v.isNum)
    if fmt_ok then
      match net with
      | none => false
      | some code => code == 200
    else false

/-- The row built by the INSERT of `log_to_database` from the required
column values, the optional columns of the payload, and the stamp the
store assigns. -/
def mkRow (payload : Payload) (t l n b : Value) (stamp : Nat) : Row :=
  { timestamp := t, account_label := l, account_number := n, balance := b,
    event_type := (payload.getOpt "event_type").getD .null,
    broker := (payload.getOpt "broker").getD .null,
    currency := (payload.getOpt "currency").getD .null,
    created_at := stamp }

/-- `log_to_database(payload)` (src/app.py:180-227).  `fault` models a
connectivity failure; without it, the single-row INSERT succeeds exactly
when the `NOT NULL` columns (`timestamp`, `account_label`,
`account_number`, `balance`) receive non-`NULL` values, appending one row
stamped with the next `created_at`. -/
def log_to_database (fault : Bool) (payload : Payload) (db : Db) :
    Bool × Db :=
  if fault then (false, db)
  else
    match payload.getOpt "timestamp", payload.getOpt "account_label",
          payload.getOpt "account_number", payload.getOpt "new_balance" with
    | some t, some l, some n, some b =>
        (true,
         { rows := db.rows ++ [mkRow payload t l n b db.nextId],
           nextId := db.nextId + 1 })
    | _, _, _, _ => (false, db)

/-- The JSON body of a `/api/balance_update` response: either the error
shape `{status:"error", message}` or the success shape with exactly the
fields `{status:"success", telegram_sent, database_logged}`. -/
inductive Body where
  | error (message : String)
  | success (telegram_sent database_logged : Bool)
deriving DecidableEq, Repr

/-- One observable effect of the ingestion pipeline, in execution order. -/
inductive Ev where
  | lookup (previous : Option Value)
  | notify (previous : Option Value) (delivered : Bool)
  | persist (logged : Bool)
deriving DecidableEq, Repr

/-- Outcome of one `/api/balance_update` call: HTTP status, body, the
database afterwards, and the ordered effect trace. -/
structure Result where
  http : Nat
  body : Body
  db : Db
  trace : List Ev
deriving DecidableEq, Repr

/-- Storage fault oracles for one ingestion call. -/
structure Faults where
  lookupFault : Bool
  insertFault : Bool
deriving DecidableEq, Repr

/-- `balance_update()` (src/app.py:230-268).  `parsed` is the outcome of
`request.get_json()`: `none` when no JSON object was obtained.  The Python
guard is `if not payload:`, which also rejects a parsed but *empty* object
(an empty dict is falsy), answering 400.  Otherwise the pipeline runs
lookup, then notify, then persist, and answers 200 with the two flags. -/
def balance_update (cfg : Config) (net : Option Nat) (f : Faults)
    (parsed : Option Payload) (db : Db) : Result :=
  match parsed with
  | none => { http := 400, body := .error "No JSON data received",
              db := db, trace := [] }
  | some payload =>
    if payload.isEmpty then
      { http := 400, body := .error "No JSON data received",
        db := db, trace := [] }
    else
      let previous_balance := get_previous_balance f.lookupFault
        (payload.getOpt "account_label") (payload.getOpt "account_number") db
      let telegram_success := send_to_telegram cfg net payload
        previous_balance
      let dbres := log_to_database f.insertFault payload db
      { http := 200,
        body := .success telegram_success dbres.1,
        db := dbres.2,
        trace := [.lookup previous_balance,
                  .notify previous_balance telegram_success,
                  .persist dbres.1] }

/-- Lexicographic comparison of character lists: SQLite's bytewise text
comparison (identical for the ASCII data at hand). -/
def charsLe : List Char → List Char → Bool
  | [], _ => true
  | _ :: _, [] => false
  | a :: as, b :: bs =>
    if a < b then true else if b < a then false else charsLe as bs

/-- Python's `s.split(',')`, character by character: `""` yields `[""]`,
and empty pieces are preserved. -/
def splitCommaAux : List Char → List Char → List String
  | [], acc => [String.mk acc.reverse]
  | c :: cs, acc =>
    if c = ',' then String.mk acc.reverse :: splitCommaAux cs []
    else splitCommaAux cs (c :: acc)

/-- `accountsParam.split(',')` as in `get_history`. -/
def splitComma (s : String) : List String :=
  splitCommaAux s.data []

/-- SQLite ordering of stored values: `NULL < numbers < text`, numbers by
magnitude, text bytewise. -/
def Value.sqlLe : Value → Value → Bool
  | .null, _ => true
  | .num _, .null => false
  | .num a, .num b => decide (a ≤ b)
  | .num _, .str _ => true
  | .str _, .null => false
  | .str _, .num _ => false
  | .str a, .str b => charsLe a.data b.data

/-- SQL three-valued `a <= b` used as a `WHERE` predicate: a comparison
against `NULL` is unknown, so the row is excluded. -/
def sqlCmpLe (a b : Value) : Bool :=
  match a, b with
  | .null, _ => false
  | _, .null => false
  | _, _ => Value.sqlLe a b

/-- `ORDER BY timestamp ASC` comparison on rows. -/
def tsLe (a b : Row) : Prop := Value.sqlLe a.timestamp b.timestamp = true

instance : DecidableRel tsLe := fun a b => by
  unfold tsLe; infer_instance

/-- `ORDER BY account_label` comparison on (label, number) pairs. -/
def labLe (a b : Value × Value) : Prop := Value.sqlLe a.1 b.1 = true

instance : DecidableRel labLe := fun a b => by
  unfold labLe; infer_instance

/-- The `WHERE` clause built by `get_history`: label `IN (...)` filter when
the comma-split parameter has a non-empty first element (Python
`if account_labels and account_labels[0]:`), plus the optional date
bounds (`if start_date:` / `if end_date:` are also false on empty
strings), the end bound with `" 23:59:59"` appended. -/
def historyPred (account_labels : List String)
    (start_date end_date : Option String) (r : Row) : Bool :=
  (match account_labels with
   | [] => true
   | l :: _ =>
     if l = "" then true
     else (account_labels.map Value.str).contains r.account_label) &&
  (match start_date with
   | some s => if s = "" then true else sqlCmpLe (.str s) r.timestamp
   | none => true) &&
  (match end_date with
   | some e => if e = "" then true
               else sqlCmpLe r.timestamp (.str (e ++ " 23:59:59"))
   | none => true)

/-- `get_history()` (src/app.py:330-404): split the `accounts` parameter on
commas, filter conjunctively, `ORDER BY timestamp ASC`. -/
def get_history (accountsParam : String)
    (start_date end_date : Option String) (db : Db) : List Row :=
  let account_labels := splitComma accountsParam
  List.insertionSort tsLe
    (db.rows.filter (historyPred account_labels start_date end_date))

/-- `get_accounts()` (src/app.py:295-328):
`SELECT DISTINCT account_label, account_number ... ORDER BY account_label`,
each row reshaped to `{label, number}` (here: the pair). -/
def get_accounts (db : Db) : List (Value × Value) :=
  List.insertionSort labLe
    ((db.rows.map (fun r => (r.account_label, r.account_number))).dedup)

/-! ### Concrete sample data (for witnesses and counterexamples) -/

/-- The spec's example first payload:
`{account_label:"Acct1", account_number:"1001", new_balance:500.00, timestamp:"2024-01-01T00:00:00"}`. -/
def p1ex : Payload :=
  [("timestamp", .str "2024-01-01T00:00:00"),
   ("account_label", .str "Acct1"),
   ("account_number", .str "1001"),
   ("new_balance", .num 500)]

/-- The spec's example second payload for the same account, balance 750. -/
def p2ex : Payload :=
  [("timestamp", .str "2024-01-02T00:00:00"),
   ("account_label", .str "Acct1"),
   ("account_number", .str "1001"),
   ("new_balance", .num 750)]

/-- A fully configured messaging setup. -/
def cfgEx : Config := { telegram_bot_token := "token", telegram_chat_id := "chat" }

/-- A stored row with an intraday event timestamp, as in the spec's
end-of-day example. -/
def rowEx : Row :=
  { timestamp := .str "2024-01-05 10:00:00",
    account_label := .str "Acct1",
    account_number := .str "1001",
    balance := .num 500,
    event_type := .null,
    broker := .null,
    currency := .null,
    created_at := 0 }

/-- A database holding exactly `rowEx`. -/
def dbEx : Db := { rows := [rowEx], nextId := 1 }

/-! ### Helper lemmas -/

theorem charsLe_total : ∀ (a b : List Char),
    charsLe a b = true ∨ charsLe b a = true := by
  intro a
  induction a with
  | nil => intro b; left; rfl
  | cons x as ih =>
    intro b
    cases b with
    | nil => right; rfl
    | cons y bs =>
      simp only [charsLe]
      rcases lt_trichotomy x y with h | rfl | h
      · left; simp [h]
      · simpa [lt_irrefl] using ih bs
      · right; simp [h]

theorem charsLe_trans : ∀ (a b c : List Char),
    charsLe a b = true → charsLe b c = true → charsLe a c = true := by
  intro a
  induction a with
  | nil => intro b c _ _; rfl
  | cons x as ih =>
    intro b c hab hbc
    cases b with
    | nil => simp [charsLe] at hab
    | cons y bs =>
      cases c with
      | nil => simp [charsLe] at hbc
      | cons z cs =>
        simp only [charsLe] at hab hbc ⊢
        rcases lt_trichotomy x y with hxy | rfl | hxy
        · rcases lt_trichotomy y z with hyz | rfl | hyz
          · simp [lt_trans hxy hyz]
          · simp [hxy]
          · rw [if_neg (lt_asymm hyz), if_pos hyz] at hbc
            exact absurd hbc (by simp)
        · simp only [lt_irrefl, if_neg (lt_irrefl x), if_false] at hab
          rcases lt_trichotomy x z with hxz | rfl | hxz
          · simp [hxz]
          · simp only [lt_irrefl, if_neg (lt_irrefl x), if_false] at hbc ⊢
            exact ih bs cs hab hbc
          · rw [if_neg (lt_asymm hxz), if_pos hxz] at hbc
            exact absurd hbc (by simp)
        · rw [if_neg (lt_asymm hxy), if_pos hxy] at hab
          exact absurd hab (by simp)

theorem Value.sqlLe_total (a b : Value) :
    a.sqlLe b = true ∨ b.sqlLe a = true := by
  cases a <;> cases b <;> simp [Value.sqlLe]
  · exact Int.le_total _ _
  · exact charsLe_total _ _

theorem Value.sqlLe_trans {a b c : Value} (hab : a.sqlLe b = true)
    (hbc : b.sqlLe c = true) : a.sqlLe c = true := by
  cases a <;> cases b <;> cases c <;>
    simp [Value.sqlLe] at hab hbc ⊢ <;>
    first
    | exact le_trans hab hbc
    | exact charsLe_trans _ _ _ hab hbc

instance : IsTotal Row tsLe :=
  ⟨fun a b => Value.sqlLe_total a.timestamp b.timestamp⟩

instance : IsTrans Row tsLe :=
  ⟨fun _ _ _ hab hbc => Value.sqlLe_trans hab hbc⟩

instance : IsTotal (Value × Value) labLe :=
  ⟨fun a b => Value.sqlLe_total a.1 b.1⟩

instance : IsTrans (Value × Value) labLe :=
  ⟨fun _ _ _ hab hbc => Value.sqlLe_trans hab hbc⟩

theorem pickLatest_eq_none {l : List Row} :
    pickLatest l = none ↔ l = [] := by
  cases l with
  | nil => simp [pickLatest]
  | cons r rs =>
    simp only [pickLatest]
    cases pickLatest rs with
    | none => simp
    | some m =>
      constructor
      · intro h
        by_cases hc : r.created_at < m.created_at <;> simp [hc] at h
      · intro h
        exact absurd h (by simp)

theorem pickLatest_spec : ∀ {l : List Row} {m : Row},
    pickLatest l = some m →
    m ∈ l ∧ ∀ r ∈ l, r.created_at ≤ m.created_at := by
  intro l
  induction l with
  | nil => intro m h; simp [pickLatest] at h
  | cons r rs ih =>
    intro m h
    simp only [pickLatest] at h
    cases hrs : pickLatest rs with
    | none =>
      rw [hrs] at h
      obtain rfl : r = m := by simpa using h
      have : rs = [] := pickLatest_eq_none.mp hrs
      subst this
      simp
    | some m' =>
      rw [hrs] at h
      replace h : (if r.created_at < m'.created_at then some m'
          else some r) = some m := h
      obtain ⟨hmem, hmax⟩ := ih hrs
      by_cases hc : r.created_at < m'.created_at
      · rw [if_pos hc] at h
        injection h with h
        subst h
        refine ⟨List.mem_cons_of_mem _ hmem, ?_⟩
        intro x hx
        rcases List.mem_cons.mp hx with rfl | hx
        · exact le_of_lt hc
        · exact hmax x hx
      · rw [if_neg hc] at h
        injection h with h
        subst h
        refine ⟨List.mem_cons_self _ _, ?_⟩
        intro x hx
        rcases List.mem_cons.mp hx with rfl | hx
        · exact le_refl _
        · exact le_trans (hmax x hx) (le_of_not_lt hc)

theorem pickLatest_append_newest {l : List Row} {a : Row}
    (h : ∀ r ∈ l, r.created_at < a.created_at) :
    pickLatest (l ++ [a]) = some a := by
  induction l with
  | nil => simp [pickLatest]
  | cons r rs ih =>
    have hrs : pickLatest (rs ++ [a]) = some a :=
      ih (fun x hx => h x (List.mem_cons_of_mem _ hx))
    have hr : r.created_at < a.created_at := h r (List.mem_cons_self _ _)
    simp only [List.cons_append, pickLatest, List.append_eq, hrs, hr, if_pos]

theorem ne_nil_of_getOpt {p : Payload} {k : String} {v : Value}
    (h : p.getOpt k = some v) : p.isEmpty = false := by
  cases p with
  | nil => simp [Payload.getOpt, List.lookup] at h
  | cons a as => rfl

theorem log_to_database_insert {p : Payload} {db : Db} {t l n b : Value}
    (ht : p.getOpt "timestamp" = some t)
    (hl : p.getOpt "account_label" = some l)
    (hn : p.getOpt "account_number" = some n)
    (hb : p.getOpt "new_balance" = some b) :
    log_to_database false p db =
      (true, { rows := db.rows ++ [mkRow p t l n b db.nextId],
               nextId := db.nextId + 1 }) := by
  simp [log_to_database, ht, hl, hn, hb]

theorem get_previous_balance_after_insert {db : Db} (hwf : db.wf)
    {p : Payload} {t l n b : Value}
    (ht : p.getOpt "timestamp" = some t)
    (hl : p.getOpt "account_label" = some l)
    (hn : p.getOpt "account_number" = some n)
    (hb : p.getOpt "new_balance" = some b) :
    get_previous_balance false (some l) (some n)
      (log_to_database false p db).2 = some b := by
  have hred : ∀ d : Db, get_previous_balance false (some l) (some n) d =
      (match pickLatest (d.rows.filter (matchesAcct (some l) (some n))) with
       | none => none
       | some r => some r.balance) := fun d => rfl
  rw [log_to_database_insert ht hl hn hb, hred]
  have h1 : List.filter (matchesAcct (some l) (some n))
      [mkRow p t l n b db.nextId] = [mkRow p t l n b db.nextId] := by
    simp [matchesAcct, mkRow]
  rw [List.filter_append, h1,
    pickLatest_append_newest (a := mkRow p t l n b db.nextId)
      (fun r hr => hwf r (List.mem_of_mem_filter hr))]
  rfl

/-! ### Claims -/

/-- C4: for every event and previous-balance input, the notification sender
returns `false` without raising when the access token or chat id is unset,
and returns `false` (never propagating an exception — it is a total
function into `Bool`) on a network failure/timeout (`net = none`) or on a
non-success HTTP response code. -/
theorem claim_C4 : ∀ (cfg : Config) (net : Option Nat) (p : Payload)
    (prev : Option Value),
    ((cfg.telegram_bot_token = "" ∨ cfg.telegram_chat_id = "") →
      send_to_telegram cfg net p prev = false) ∧
    send_to_telegram cfg none p prev = false ∧
    (∀ code : Nat, code ≠ 200 →
      send_to_telegram cfg (some code) p prev = false) := by
  intro cfg net p prev
  refine ⟨?_, ?_, ?_⟩
  · intro h
    rcases h with h | h <;> simp [send_to_telegram, h]
  · unfold send_to_telegram
    split
    · rfl
    · dsimp only
      split <;> rfl
  · intro code hcode
    unfold send_to_telegram
    split
    · rfl
    · dsimp only
      split
      · simpa using hcode
      · rfl

/-- Witness for C4 at a concrete unset-token configuration. -/
theorem claim_C4_witness :
    (("" : String) = "" ∨ ("chat" : String) = "") ∧
    send_to_telegram ⟨"", "chat"⟩ (some 200) [] none = false :=
  ⟨Or.inl rfl, (claim_C4 ⟨"", "chat"⟩ (some 200) [] none).1 (Or.inl rfl)⟩

/-- C5: `get_previous_balance` (no storage fault) returns `None` exactly
when no row matches the account pair, and otherwise the balance of a
matching row of maximal `created_at`. -/
theorem claim_C5 : ∀ (label number : Option Value) (db : Db),
    (get_previous_balance false label number db = none ↔
      db.rows.filter (matchesAcct label number) = []) ∧
    (∀ b : Value, get_previous_balance false label number db = some b →
      ∃ r ∈ db.rows.filter (matchesAcct label number),
        r.balance = b ∧
        ∀ r' ∈ db.rows.filter (matchesAcct label number),
          r'.created_at ≤ r.created_at) := by
  intro label number db
  have hred : get_previous_balance false label number db =
      (match pickLatest (db.rows.filter (matchesAcct label number)) with
       | none => none
       | some r => some r.balance) := rfl
  constructor
  · rw [hred]
    cases hp : pickLatest (db.rows.filter (matchesAcct label number)) with
    | none => simp [pickLatest_eq_none.mp hp]
    | some r =>
      simp only [reduceCtorEq, false_iff]
      intro h
      rw [h] at hp
      simp [pickLatest] at hp
  · intro b hb
    rw [hred] at hb
    cases hp : pickLatest (db.rows.filter (matchesAcct label number)) with
    | none => rw [hp] at hb; simp at hb
    | some r =>
      rw [hp] at hb
      obtain rfl : r.balance = b := by simpa using hb
      obtain ⟨hm, hmax⟩ := pickLatest_spec hp
      exact ⟨r, hm, rfl, hmax⟩

/-- Witness for C5 on the one-row database `dbEx`. -/
theorem claim_C5_witness :
    ∃ r ∈ dbEx.rows.filter
        (matchesAcct (some (.str "Acct1")) (some (.str "1001"))),
      r.balance = Value.num 500 ∧
      ∀ r' ∈ dbEx.rows.filter
          (matchesAcct (some (.str "Acct1")) (some (.str "1001"))),
        r'.created_at ≤ r.created_at :=
  (claim_C5 (some (.str "Acct1")) (some (.str "1001")) dbEx).2
    (.num 500) (by decide)

/-- C6 (counterexample): the SQLite branch of `init_database` creates no
index, so starting from an empty schema the index still does not exist
after initialization — refuting "after any call both the table and the
supporting index exist" for both dialects. -/
theorem claim_C6_cex :
    (init_database false ⟨false, false⟩).indexExists = false := rfl

/-- C6 (amended): schema initialization is idempotent for both dialects
and never duplicates objects; after any call the table exists; the
supporting index exists after the PostgreSQL call, while the SQLite branch
leaves the index exactly as it was (it never creates one). -/
theorem claim_C6 : ∀ (use_postgres : Bool) (s : Schema),
    init_database use_postgres (init_database use_postgres s) =
      init_database use_postgres s ∧
    (init_database use_postgres s).tableExists = true ∧
    (init_database true s).indexExists = true ∧
    (init_database false s).indexExists = s.indexExists := by
  intro b s
  cases b <;> simp [init_database]

/-- C10: a storage fault during the previous-balance lookup yields the
same `None` as a first-ever event (lookup on an empty store); the
ingestion pipeline still runs, the notification receives no previous
value, and the response is a 200 success whose flags reflect only the
notify and persist outcomes. -/
theorem claim_C10 : ∀ (label number : Option Value) (db : Db)
    (cfg : Config) (net : Option Nat) (i : Bool) (p : Payload), p ≠ [] →
    get_previous_balance true label number db = none ∧
    get_previous_balance false label number ⟨[], 0⟩ = none ∧
    (balance_update cfg net ⟨true, i⟩ (some p) db).http = 200 ∧
    (balance_update cfg net ⟨true, i⟩ (some p) db).body =
      Body.success (send_to_telegram cfg net p none)
        (log_to_database i p db).1 ∧
    (balance_update cfg net ⟨true, i⟩ (some p) db).trace =
      [Ev.lookup none,
       Ev.notify none (send_to_telegram cfg net p none),
       Ev.persist (log_to_database i p db).1] := by
  intro label number db cfg net i p hp
  have hne : p.isEmpty = false := by
    cases p with
    | nil => exact absurd rfl hp
    | cons a as => rfl
  refine ⟨rfl, rfl, ?_, ?_, ?_⟩ <;>
    simp [balance_update, hne, get_previous_balance]

/-- Witness for C10: a lookup fault on the sample database. -/
theorem claim_C10_witness :
    (balance_update cfgEx none ⟨true, false⟩ (some p2ex) dbEx).trace =
      [Ev.lookup none,
       Ev.notify none (send_to_telegram cfgEx none p2ex none),
       Ev.persist (log_to_database false p2ex dbEx).1] :=
  (claim_C10 none none dbEx cfgEx none false p2ex (by decide)).2.2.2.2

/-- C2 (counterexample): the empty JSON object `{}` is present and parses
as a structured object, yet the endpoint answers HTTP 400 (the Python
guard `if not payload:` treats an empty dict as absent) — refuting
"400 exactly when the body is absent or unparseable". -/
theorem claim_C2_cex :
    (balance_update ⟨"", ""⟩ none ⟨false, false⟩ (some ([] : Payload))
      ⟨[], 0⟩).http = 400 := rfl

/-- C2 (amended): the endpoint answers 400 with the error body when no
JSON object was obtained or when the parsed object is empty (falsy);
for every payload that parses to a non-empty object, notify/persist
failures surface only as `false` flags in a 200 success response. -/
theorem claim_C2 : ∀ (cfg : Config) (net : Option Nat) (f : Faults)
    (db : Db),
    ((balance_update cfg net f none db).http = 400 ∧
     (balance_update cfg net f none db).body =
       .error "No JSON data received") ∧
    (balance_update cfg net f (some []) db).http = 400 ∧
    (∀ p : Payload, p ≠ [] →
      (balance_update cfg net f (some p) db).http = 200 ∧
      (balance_update cfg net f (some p) db).body =
        Body.success
          (send_to_telegram cfg net p
            (get_previous_balance f.lookupFault (p.getOpt "account_label")
              (p.getOpt "account_number") db))
          (log_to_database f.insertFault p db).1) := by
  intro cfg net f db
  refine ⟨⟨rfl, rfl⟩, rfl, ?_⟩
  intro p hp
  have hne : p.isEmpty = false := by
    cases p with
    | nil => exact absurd rfl hp
    | cons a as => rfl
  constructor <;> simp [balance_update, hne]

/-- Witness for C2 on the spec's example payload. -/
theorem claim_C2_witness :
    (balance_update cfgEx (some 200) ⟨false, false⟩ (some p1ex)
      ⟨[], 0⟩).http = 200 :=
  ((claim_C2 cfgEx (some 200) ⟨false, false⟩ ⟨[], 0⟩).2.2 p1ex
    (by decide)).1

/-- C3 (counterexample): the empty JSON object parses, yet the response
body is the error shape rather than the three-field success shape —
refuting "for every payload that parses, including an empty one". -/
theorem claim_C3_cex :
    (balance_update ⟨"token", "chat"⟩ (some 200) ⟨false, false⟩
      (some ([] : Payload)) ⟨[], 3⟩).body =
      .error "No JSON data received" := rfl

/-- C3 (amended): for every payload that parses to a non-empty structured
object the body is exactly the success shape
`{status:"success", telegram_sent, database_logged}`; among parsed
payloads, validation rejects (HTTP 400) exactly the empty object, and an
absent/unparsed body is also rejected with 400. -/
theorem claim_C3 : ∀ (cfg : Config) (net : Option Nat) (f : Faults)
    (db : Db) (p : Payload),
    (p ≠ [] → ∃ ts dl : Bool,
      (balance_update cfg net f (some p) db).body = Body.success ts dl) ∧
    ((balance_update cfg net f (some p) db).http = 400 ↔ p = []) ∧
    (balance_update cfg net f none db).http = 400 := by
  intro cfg net f db p
  refine ⟨?_, ?_, rfl⟩
  · intro hp
    have hne : p.isEmpty = false := by
      cases p with
      | nil => exact absurd rfl hp
      | cons a as => rfl
    exact ⟨send_to_telegram cfg net p
        (get_previous_balance f.lookupFault (p.getOpt "account_label")
          (p.getOpt "account_number") db),
      (log_to_database f.insertFault p db).1,
      by simp [balance_update, hne]⟩
  · cases p with
    | nil => simp [balance_update]
    | cons a as => simp [balance_update]

/-- Witness for C3 on the spec's second example payload. -/
theorem claim_C3_witness :
    ∃ ts dl : Bool,
      (balance_update cfgEx none ⟨true, true⟩ (some p2ex) dbEx).body =
        Body.success ts dl :=
  (claim_C3 cfgEx none ⟨true, true⟩ dbEx p2ex).1 (by decide)

/-- C7: the history query with `accounts="A"` returns exactly the rows
whose `account_label` is `"A"` (as a multiset), ordered by timestamp
ascending; with `accounts=""` no account filter applies and all rows are
returned, ordered by timestamp ascending. -/
theorem claim_C7 : ∀ db : Db,
    (List.Perm (get_history "A" none none db)
        (db.rows.filter (fun r => r.account_label == Value.str "A")) ∧
      List.Pairwise tsLe (get_history "A" none none db)) ∧
    (List.Perm (get_history "" none none db) db.rows ∧
      List.Pairwise tsLe (get_history "" none none db)) := by
  intro db
  have hA : splitComma "A" = ["A"] := rfl
  have hE : splitComma "" = [""] := rfl
  have hfA : db.rows.filter (historyPred ["A"] none none) =
      db.rows.filter (fun r => r.account_label == Value.str "A") := by
    apply List.filter_congr
    intro r _
    simp [historyPred, List.contains, List.elem]
    cases r.account_label == Value.str "A" <;> rfl
  have hgA : get_history "A" none none db =
      List.insertionSort tsLe
        (db.rows.filter (fun r => r.account_label == Value.str "A")) := by
    simp only [get_history, hA, hfA]
  have hfE : db.rows.filter (historyPred [""] none none) = db.rows := by
    have : ∀ r ∈ db.rows, historyPred [""] none none r = true := by
      intro r _
      simp [historyPred]
    rw [List.filter_congr this, List.filter_true]
  have hgE : get_history "" none none db =
      List.insertionSort tsLe db.rows := by
    simp only [get_history, hE, hfE]
  refine ⟨⟨?_, ?_⟩, ?_, ?_⟩
  · rw [hgA]; exact List.perm_insertionSort tsLe _
  · rw [hgA]; exact List.sorted_insertionSort tsLe _
  · rw [hgE]; exact List.perm_insertionSort tsLe _
  · rw [hgE]; exact List.sorted_insertionSort tsLe _

/-- C8: with an `end_date` supplied, the query compares the stored
timestamp against the bound with `" 23:59:59"` appended, so the bound is
inclusive through end of day; concretely, the row timestamped
`"2024-01-05 10:00:00"` is returned when `end_date="2024-01-05"`. -/
theorem claim_C8 :
    (∀ (db : Db) (e : String) (r : Row), e ≠ "" →
      (r ∈ get_history "" none (some e) db ↔
        r ∈ db.rows ∧
          sqlCmpLe r.timestamp (.str (e ++ " 23:59:59")) = true)) ∧
    get_history "" none (some "2024-01-05") dbEx = [rowEx] := by
  constructor
  · intro db e r he
    have hE : splitComma "" = [""] := rfl
    simp only [get_history, hE, List.mem_insertionSort, List.mem_filter]
    have hpred : historyPred [""] none (some e) r =
        sqlCmpLe r.timestamp (.str (e ++ " 23:59:59")) := by
      simp [historyPred, he]
    rw [hpred]
  · decide

/-- Witness for C8 on the sample database. -/
theorem claim_C8_witness :
    rowEx ∈ get_history "" none (some "2024-01-05") dbEx ↔
      rowEx ∈ dbEx.rows ∧
        sqlCmpLe rowEx.timestamp
          (.str ("2024-01-05" ++ " 23:59:59")) = true :=
  claim_C8.1 dbEx "2024-01-05" rowEx (by decide)

/-- C9: the accounts listing contains a `(label, number)` pair exactly
when some stored row carries it, contains no duplicates, and is ordered
by `account_label` ascending. -/
theorem claim_C9 : ∀ db : Db,
    (∀ p : Value × Value, p ∈ get_accounts db ↔
      p ∈ db.rows.map (fun r => (r.account_label, r.account_number))) ∧
    (get_accounts db).Nodup ∧
    List.Pairwise labLe (get_accounts db) := by
  intro db
  refine ⟨?_, ?_, ?_⟩
  · intro p
    simp [get_accounts, List.mem_insertionSort, List.mem_dedup]
  · exact ((List.perm_insertionSort labLe _).nodup_iff).mpr
      (List.nodup_dedup _)
  · exact List.sorted_insertionSort labLe _

/-- C1: for every ingestion call whose payload passes the validation
guard, the effect trace places the notification strictly before the
persistence attempt and hands it the pre-insert `get_previous_balance`
snapshot; consequently, for two sequential ingestion calls for the same
account with balances `B₁` then `B₂` (the second lookup running after the
first successful insert), the second call's notification references `B₁`
as the previous balance. -/
theorem claim_C1 :
    (∀ (cfg : Config) (net : Option Nat) (f : Faults) (p : Payload)
      (db : Db), p ≠ [] →
      (balance_update cfg net f (some p) db).trace =
        [Ev.lookup (get_previous_balance f.lookupFault
            (p.getOpt "account_label") (p.getOpt "account_number") db),
         Ev.notify (get_previous_balance f.lookupFault
            (p.getOpt "account_label") (p.getOpt "account_number") db)
           (send_to_telegram cfg net p
             (get_previous_balance f.lookupFault
               (p.getOpt "account_label") (p.getOpt "account_number") db)),
         Ev.persist (log_to_database f.insertFault p db).1]) ∧
    (∀ (cfg₁ cfg₂ : Config) (net₁ net₂ : Option Nat) (lf₁ i₂ : Bool)
      (p₁ p₂ : Payload) (db : Db) (t l n b₁ : Value),
      db.wf →
      p₁.getOpt "timestamp" = some t →
      p₁.getOpt "account_label" = some l →
      p₁.getOpt "account_number" = some n →
      p₁.getOpt "new_balance" = some b₁ →
      p₂.getOpt "account_label" = some l →
      p₂.getOpt "account_number" = some n →
      p₂ ≠ [] →
      (balance_update cfg₂ net₂ ⟨false, i₂⟩ (some p₂)
          ((balance_update cfg₁ net₁ ⟨lf₁, false⟩ (some p₁) db).db)).trace =
        [Ev.lookup (some b₁),
         Ev.notify (some b₁) (send_to_telegram cfg₂ net₂ p₂ (some b₁)),
         Ev.persist (log_to_database i₂ p₂
           ((balance_update cfg₁ net₁ ⟨lf₁, false⟩ (some p₁) db).db)).1]) := by
  constructor
  · intro cfg net f p db hp
    have hne : p.isEmpty = false := by
      cases p with
      | nil => exact absurd rfl hp
      | cons a as => rfl
    simp [balance_update, hne]
  · intro cfg₁ cfg₂ net₁ net₂ lf₁ i₂ p₁ p₂ db t l n b₁ hwf ht hl hn hb
      hl₂ hn₂ hp₂
    have hne₁ : p₁.isEmpty = false := ne_nil_of_getOpt ht
    have hne₂ : p₂.isEmpty = false := by
      cases p₂ with
      | nil => exact absurd rfl hp₂
      | cons a as => rfl
    have hdb₁ : (balance_update cfg₁ net₁ ⟨lf₁, false⟩ (some p₁) db).db =
        (log_to_database false p₁ db).2 := by
      simp [balance_update, hne₁]
    rw [hdb₁]
    have hprev : get_previous_balance false (p₂.getOpt "account_label")
        (p₂.getOpt "account_number") (log_to_database false p₁ db).2 =
        some b₁ := by
      rw [hl₂, hn₂]
      exact get_previous_balance_after_insert hwf ht hl hn hb
    simp [balance_update, hne₂, hprev]

/-- Witness for C1: the spec's example scenario — balance 500 then 750 for
account ("Acct1", "1001") starting from an empty store. -/
theorem claim_C1_witness :
    (balance_update cfgEx (some 200) ⟨false, false⟩ (some p2ex)
        ((balance_update cfgEx (some 200) ⟨false, false⟩ (some p1ex)
          ⟨[], 0⟩).db)).trace =
      [Ev.lookup (some (.num 500)),
       Ev.notify (some (.num 500))
         (send_to_telegram cfgEx (some 200) p2ex (some (.num 500))),
       Ev.persist (log_to_database false p2ex
         ((balance_update cfgEx (some 200) ⟨false, false⟩ (some p1ex)
           ⟨[], 0⟩).db)).1] :=
  claim_C1.2 cfgEx cfgEx (some 200) (some 200) false false p1ex p2ex
    ⟨[], 0⟩ (.str "2024-01-01T00:00:00") (.str "Acct1") (.str "1001")
    (.num 500) (fun r hr => absurd hr (List.not_mem_nil r)) (by decide)
    (by decide) (by decide) (by decide) (by decide) (by decide) (by decide)

end BalanceMonitor
